import Mathlib

/-!
Shallow embedding of the adaptive search core of `src/src/filter-bug/FilterPanel.tsx`
(the `AdvancedSearchComponent`): rate limiter, result cache, the four search
strategies, and the orchestrator (`performSearch`, `handleInputChange`, the
manual submit path of `handleKeyDown`).

Modelling conventions:
* JS `Date.now()` timestamps are `Int` (a cutoff `now - windowMs` may be
  negative relative to small test clocks, so `Nat` truncation would be wrong).
* A JS `Map` is an insertion-ordered association list.  `Map.set` on an
  existing key updates the value in place keeping its position; `Map.delete`
  removes the (unique) binding; iteration order is insertion order.
* The resolved outcome of an awaited remote call is passed in explicitly as
  `Except JsError (List User)`: `.ok data` for a fulfilled promise, `.error e`
  for a rejection (`e.name = "AbortError"` for an aborted fetch).
* String operations mirror the ASCII behaviour of the JS ones used by the
  source (`toLowerCase`, `includes`, `startsWith`, `trim`).
-/

namespace FilterBug

/-- ASCII lower-casing, modelling JS `String.prototype.toLowerCase` on the
ASCII queries the component handles. -/
def strLower (s : String) : String :=
  String.mk (s.data.map Char.toLower)

/-- Whether `pat` occurs as a contiguous run inside `l`
(JS `String.prototype.includes` on the char level). -/
def listHasInfix (pat : List Char) : List Char → Bool
  | [] => pat.isEmpty
  | c :: rest => pat.isPrefixOf (c :: rest) || listHasInfix pat rest

/-- JS `s.includes(pat)`. -/
def strContains (s pat : String) : Bool :=
  listHasInfix pat.data s.data

/-- JS `s.startsWith(pat)`. -/
def strStartsWith (s pat : String) : Bool :=
  pat.data.isPrefixOf s.data

/-- JS `s.trim()`: drop whitespace from both ends. -/
def strTrim (s : String) : String :=
  String.mk (((s.data.dropWhile Char.isWhitespace).reverse.dropWhile
    Char.isWhitespace).reverse)

/-- The `User` records returned by the remote endpoint
(`FilterPanel.tsx` lines 156-163); `company` is flattened to its single
string field `name`. -/
structure User where
  id : Nat
  name : String
  email : String
  companyName : String
deriving DecidableEq, Repr

/-- A key of the `User` interface, as listed in the `searchFields` prop. -/
inductive UserField where
  | id
  | name
  | email
  | company
deriving DecidableEq, Repr

/-- One disjunct of the `searchFields.some(...)` test shared by
`performApiSearch` (lines 679-694) and `performLocalSearch` (lines 709-721):
a string field matches when its lower-cased text contains the lower-cased
query; the numeric `id` never matches; the `company` object matches through
its string values (just `name`). -/
def fieldMatches (lowerQuery : String) (u : User) : UserField → Bool
  | .id => false
  | .name => strContains (strLower u.name) lowerQuery
  | .email => strContains (strLower u.email) lowerQuery
  | .company => strContains (strLower u.companyName) lowerQuery

/-- The full `searchFields.some(...)` predicate over one user. -/
def userMatches (fields : List UserField) (lowerQuery : String) (u : User) : Bool :=
  fields.any (fieldMatches lowerQuery u)

/-! ### JS `Map` model (insertion-ordered association list) -/

/-- `Map.prototype.get`: first (unique) binding of `k`. -/
def mapGet {α : Type} (m : List (String × α)) (k : String) : Option α :=
  match m with
  | [] => none
  | p :: rest => if p.1 = k then some p.2 else mapGet rest k

/-- `Map.prototype.set`: replace in place if the key is present (keeping its
position in iteration order), else append. -/
def mapSet {α : Type} (m : List (String × α)) (k : String) (v : α) :
    List (String × α) :=
  if m.any (fun p => p.1 = k) then
    m.map (fun p => if p.1 = k then (k, v) else p)
  else
    m ++ [(k, v)]

/-- `Map.prototype.delete`: remove the first binding of `k`. -/
def mapDelete {α : Type} (m : List (String × α)) (k : String) :
    List (String × α) :=
  match m with
  | [] => []
  | p :: rest => if p.1 = k then rest else p :: mapDelete rest k

/-! ### Rate limiter (`createRateLimiter`, lines 218-246) -/

namespace RateLimiter

/-- The `cleanup` closure: drop every timestamp `t` with
`t <= Date.now() - windowMs` (the source's reverse `splice` loop keeps
relative order, so a filter is equivalent). -/
def cleanup (windowMs now : Int) (requests : List Int) : List Int :=
  requests.filter (fun t => decide (now - windowMs < t))

/-- `isLimited()`: purge, then compare the retained count with the limit. -/
def isLimited (limit : Nat) (windowMs now : Int) (requests : List Int) : Bool :=
  decide (limit ≤ (cleanup windowMs now requests).length)

/-- `record()`: append the current timestamp. -/
def record (now : Int) (requests : List Int) : List Int :=
  requests ++ [now]

/-- `remaining()`: `Math.max(0, limit - count)` after a purge
(`Nat` subtraction already truncates at zero). -/
def remaining (limit : Nat) (windowMs now : Int) (requests : List Int) : Nat :=
  limit - (cleanup windowMs now requests).length

end RateLimiter

/-! ### Result cache (`createSearchCache`, lines 248-302) -/

/-- A cache entry (`CacheEntry<T>`, lines 181-184). -/
structure CacheEntry where
  data : List User
  timestamp : Int
deriving DecidableEq, Repr

/-- The backing `Map<string, CacheEntry>`. -/
abbrev Cache := List (String × CacheEntry)

namespace SearchCache

/-- `get(query)` (lines 252-262): exact lookup; an entry older than
`duration` is deleted and reported absent.  Returns the answer together with
the possibly-shrunk map. -/
def get (duration now : Int) (c : Cache) (q : String) :
    Option (List User) × Cache :=
  match mapGet c q with
  | none => (none, c)
  | some entry =>
    if duration < now - entry.timestamp then (none, mapDelete c q)
    else (some entry.data, c)

/-- The capacity check at the top of `set` (lines 265-268): when
`cache.size >= maxSize`, delete the first iteration-order key — but the JS
guard `if (firstKey)` is falsy for the empty-string key, in which case
nothing is deleted. -/
def evict (maxSize : Nat) (c : Cache) : Cache :=
  if maxSize ≤ c.length then
    match c.head? with
    | some (k, _) => if k = "" then c else mapDelete c k
    | none => c
  else c

/-- `set(query, data)` (lines 264-274). -/
def set (maxSize : Nat) (now : Int) (c : Cache) (q : String) (d : List User) :
    Cache :=
  mapSet (evict maxSize c) q { data := d, timestamp := now }

/-- The scan inside `fuzzyMatch` (lines 279-289): first non-expired entry
whose key is a prefix of the query or contains the query, case-insensitively. -/
def fuzzyGo (duration now : Int) (lowerQuery : String) : Cache → Option (List User)
  | [] => none
  | (k, entry) :: rest =>
    if duration < now - entry.timestamp then fuzzyGo duration now lowerQuery rest
    else
      let lowerCached := strLower k
      if strStartsWith lowerQuery lowerCached || strContains lowerCached lowerQuery then
        some entry.data
      else fuzzyGo duration now lowerQuery rest

/-- `fuzzyMatch(query)` (lines 276-292); it never mutates the map. -/
def fuzzyMatch (duration now : Int) (c : Cache) (q : String) :
    Option (List User) :=
  fuzzyGo duration now (strLower q) c

end SearchCache

/-! ### Search strategies (lines 308-503) -/

/-- Provenance tag of a result (`SearchResult<T>.source`, line 210). -/
inductive Source where
  | cache
  | api
  | «local»
  | rate_limited
deriving DecidableEq, Repr

/-- A strategy result (`SearchResult<T>`, lines 208-212). -/
structure SearchResult where
  data : List User
  source : Source
  error : Option String
deriving DecidableEq, Repr

/-- A JS `Error` value as far as the component inspects it:
its `name` and `message`.  An aborted fetch rejects with
`name = "AbortError"`. -/
structure JsError where
  name : String
  message : String
deriving DecidableEq, Repr

/-- Output of one `execute`/`tryApiSearch` call: the returned result, the
post-call cache and rate-limiter state, and whether the remote `apiSearch`
function was actually invoked. -/
structure ExecOut where
  result : SearchResult
  cache : Cache
  requests : List Int
  apiCalled : Bool
deriving DecidableEq, Repr

/-- The `tryApiSearch` helper, textually identical in the instant, balanced
and conservative strategies (lines 312-336, 352-376, 415-439): if the rate
limiter reports limited, answer `rate_limited` without touching the network;
otherwise await the remote call, and on fulfilment `record()` a timestamp
and write the cache, on rejection answer an api-sourced error result.
`api` is the resolved outcome of the awaited `apiSearch(query)` promise. -/
def tryApiSearch (limit : Nat) (windowMs : Int) (maxCacheSize : Nat)
    (now : Int) (c : Cache) (requests : List Int) (q : String)
    (api : Except JsError (List User)) : ExecOut :=
  let cleaned := RateLimiter.cleanup windowMs now requests
  if limit ≤ cleaned.length then
    { result := { data := [], source := .rate_limited,
                  error := some "Rate limit exceeded. Please slow down." },
      cache := c, requests := cleaned, apiCalled := false }
  else
    match api with
    | .ok data =>
      { result := { data := data, source := .api, error := none },
        cache := SearchCache.set maxCacheSize now c q data,
        requests := RateLimiter.record now cleaned, apiCalled := true }
    | .error e =>
      { result := { data := [], source := .api, error := some e.message },
        cache := c, requests := cleaned, apiCalled := true }

/-- `createInstantSearchStrategy(...).execute` (lines 338-345): always just
`tryApiSearch`. -/
def instantExecute (limit : Nat) (windowMs : Int) (maxCacheSize : Nat)
    (now : Int) (c : Cache) (requests : List Int) (q : String)
    (api : Except JsError (List User)) : ExecOut :=
  tryApiSearch limit windowMs maxCacheSize now c requests q api

/-- `createBalancedSearchStrategy(...).execute` (lines 378-408): exact cache,
then fuzzy cache, then remote; when the remote result carries an error and no
data, fall back to a non-empty local-history result. -/
def balancedExecute (limit : Nat) (windowMs duration : Int)
    (maxCacheSize : Nat) (now : Int) (c : Cache) (requests : List Int)
    (q : String) (api : Except JsError (List User))
    (localSearch : String → List User) : ExecOut :=
  match SearchCache.get duration now c q with
  | (some d, c1) =>
    { result := { data := d, source := .cache, error := none },
      cache := c1, requests := requests, apiCalled := false }
  | (none, c1) =>
    match SearchCache.fuzzyMatch duration now c1 q with
    | some d =>
      { result := { data := d, source := .cache, error := none },
        cache := c1, requests := requests, apiCalled := false }
    | none =>
      let eo := tryApiSearch limit windowMs maxCacheSize now c1 requests q api
      if eo.result.error.isSome ∧ eo.result.data = [] then
        let localData := localSearch q
        if localData ≠ [] then
          { eo with result := { data := localData, source := Source.«local»,
                                error := some "Showing local results (API unavailable)" } }
        else eo
      else eo

/-- `createConservativeSearchStrategy(...).execute` (lines 441-475): length
`<= 3` resolves from local history only; longer queries consult exact-or-fuzzy
cache, then the rate limiter (limited falls back to local history tagged
`rate_limited`), then the remote. -/
def conservativeExecute (limit : Nat) (windowMs duration : Int)
    (maxCacheSize : Nat) (now : Int) (c : Cache) (requests : List Int)
    (q : String) (api : Except JsError (List User))
    (localSearch : String → List User) : ExecOut :=
  if q.length ≤ 3 then
    let localData := localSearch q
    { result := { data := localData, source := Source.«local»,
                  error := if localData = [] then some "Type more characters for API search" else none },
      cache := c, requests := requests, apiCalled := false }
  else
    match SearchCache.get duration now c q with
    | (some d, c1) =>
      { result := { data := d, source := .cache, error := none },
        cache := c1, requests := requests, apiCalled := false }
    | (none, c1) =>
      match SearchCache.fuzzyMatch duration now c1 q with
      | some d =>
        { result := { data := d, source := .cache, error := none },
          cache := c1, requests := requests, apiCalled := false }
      | none =>
        let cleaned := RateLimiter.cleanup windowMs now requests
        if limit ≤ cleaned.length then
          { result := { data := localSearch q, source := .rate_limited,
                        error := some "Rate limited. Showing local results." },
            cache := c1, requests := cleaned, apiCalled := false }
        else
          tryApiSearch limit windowMs maxCacheSize now c1 cleaned q api

/-- `createManualSearchStrategy(...).execute` (lines 478-503): cache first,
otherwise a local-history answer; never touches the remote or the rate
limiter from this entry point. -/
def manualExecute (duration : Int) (now : Int) (c : Cache)
    (requests : List Int) (q : String)
    (localSearch : String → List User) : ExecOut :=
  match SearchCache.get duration now c q with
  | (some d, c1) =>
    { result := { data := d, source := .cache, error := none },
      cache := c1, requests := requests, apiCalled := false }
  | (none, c1) =>
    let localData := localSearch q
    { result := { data := localData, source := Source.«local»,
                  error := if localData = [] then some "No local results. Press Enter for API search." else none },
      cache := c1, requests := requests, apiCalled := false }

/-- `SearchMode` (line 171). -/
inductive SearchMode where
  | instant
  | balanced
  | conservative
  | manual
deriving DecidableEq, Repr

/-- Dispatch on `strategies[currentMode]` (lines 605-613, 769). -/
def executeStrategy (mode : SearchMode) (limit : Nat)
    (windowMs duration : Int) (maxCacheSize : Nat) (now : Int) (c : Cache)
    (requests : List Int) (q : String) (api : Except JsError (List User))
    (localSearch : String → List User) : ExecOut :=
  match mode with
  | .instant => instantExecute limit windowMs maxCacheSize now c requests q api
  | .balanced =>
    balancedExecute limit windowMs duration maxCacheSize now c requests q api localSearch
  | .conservative =>
    conservativeExecute limit windowMs duration maxCacheSize now c requests q api localSearch
  | .manual => manualExecute duration now c requests q localSearch

/-! ### Orchestrator (`AdvancedSearchComponent`, lines 538-1005) -/

/-- The `apiResult` state (`ApiResult`, lines 165-170). -/
structure ApiResult where
  isLoading : Bool
  error : Option String
  results : List User
  isDropdownOpen : Bool
deriving DecidableEq, Repr

/-- The statistics counters (`SearchStats`, lines 186-190). -/
structure SearchStats where
  apiCalls : Nat
  cacheHits : Nat
  localSearches : Nat
deriving DecidableEq, Repr

/-- The component props used by the core (lines 538-552), with their
documented defaults. -/
structure Config where
  minQueryLength : Nat := 2
  maxResults : Nat := 50
  rateLimit : Nat := 60
  rateLimitWindow : Int := 60000
  cacheDuration : Int := 300000
  maxCacheSize : Nat := 50
  searchFields : List UserField := [.name, .email]
deriving Repr

/-- All mutable state owned by one orchestrator instance: the rendered
`apiResult`, the stats counters, `recentSearchesRef` (LocalHistory),
the cache map and the rate limiter's timestamp array. -/
structure OrchState where
  apiResult : ApiResult
  searchStats : SearchStats
  recentSearches : List (String × List User)
  cache : Cache
  requests : List Int
deriving DecidableEq, Repr

/-- `updateStats` (lines 734-747): bump the counter matching the source tag;
the `default` case (`rate_limited`) bumps nothing. -/
def updateStats (source : Source) (s : SearchStats) : SearchStats :=
  match source with
  | .api => { s with apiCalls := s.apiCalls + 1 }
  | .cache => { s with cacheHits := s.cacheHits + 1 }
  | Source.«local» => { s with localSearches := s.localSearches + 1 }
  | .rate_limited => s

/-- Keep-first deduplication, modelling the JS `Set<User>` insertion pass of
`performLocalSearch` (identity-based in JS; value-based here, which agrees
whenever equal user records are the same object). -/
def dedupAcc (seen : List User) : List User → List User
  | [] => []
  | u :: rest =>
    if seen.contains u then dedupAcc seen rest
    else u :: dedupAcc (u :: seen) rest

/-- `performLocalSearch` (lines 702-732): scan every result list stored in
`recentSearchesRef` in insertion order, keep users matching the query on the
configured fields, deduplicate, and truncate to `maxResults`. -/
def performLocalSearch (fields : List UserField) (maxResults : Nat)
    (history : List (String × List User)) (q : String) : List User :=
  let lowerQuery := strLower q
  let matched := ((history.map Prod.snd).flatten).filter (userMatches fields lowerQuery)
  (dedupAcc [] matched).take maxResults

/-- The LocalHistory write of `performSearch` (lines 788-792): store the
result list under the trimmed query, then if the map outgrew 20 entries
delete the first iteration-order key (again behind the falsy-for-empty-string
`if (firstKey)` guard). -/
def historySet (h : List (String × List User)) (q : String) (d : List User) :
    List (String × List User) :=
  let h1 := mapSet h q d
  if 20 < h1.length then
    match h1.head? with
    | some (k, _) => if k = "" then h1 else mapDelete h1 k
    | none => h1
  else h1

/-- What one `performSearch` invocation did: the final component state,
the result applied to the caller-visible state (`none` when the invocation
returned without delivering one — short query or superseded mode), whether a
strategy was dispatched, and whether the remote was invoked. -/
structure PerformOut where
  state : OrchState
  delivered : Option SearchResult
  strategyInvoked : Bool
  apiCalled : Bool
deriving DecidableEq, Repr

/-- `performSearch` (lines 749-812).  `currentMode` is the mode captured at
dispatch; `modeAtResolution` is `currentStrategyRef.current` when the awaited
`strategy.execute` resolves; `api` is the resolved outcome of the underlying
`performApiSearch` promise (unused when the strategy never goes remote).
Queries failing the length guard clear the results and error synchronously
and dispatch nothing.  Otherwise the strategy runs; a result arriving after
the active mode changed is dropped (only the `finally` reset of `isLoading`
runs), else the result is applied: `error`/`results` are set, the matching
stats counter bumped, non-empty data written to LocalHistory, the dropdown
opened and `isLoading` cleared. -/
def performSearch (cfg : Config) (now : Int) (searchQuery : String)
    (currentMode modeAtResolution : SearchMode)
    (api : Except JsError (List User)) (st : OrchState) : PerformOut :=
  let trimmedQuery := strTrim searchQuery
  if trimmedQuery = "" ∨ trimmedQuery.length < cfg.minQueryLength then
    { state := { st with apiResult := { st.apiResult with error := none, results := [] } },
      delivered := none, strategyInvoked := false, apiCalled := false }
  else
    let ar1 := { st.apiResult with error := none, isLoading := true }
    let eo := executeStrategy currentMode cfg.rateLimit cfg.rateLimitWindow
      cfg.cacheDuration cfg.maxCacheSize now st.cache st.requests trimmedQuery api
      (performLocalSearch cfg.searchFields cfg.maxResults st.recentSearches)
    if modeAtResolution ≠ currentMode then
      { state := { st with apiResult := { ar1 with isLoading := false },
                           cache := eo.cache, requests := eo.requests },
        delivered := none, strategyInvoked := true, apiCalled := eo.apiCalled }
    else
      let r := eo.result
      let ar2 := { ar1 with error := r.error, results := r.data,
                            isDropdownOpen := true, isLoading := false }
      let history' :=
        if r.data = [] then st.recentSearches
        else historySet st.recentSearches trimmedQuery r.data
      { state := { apiResult := ar2,
                   searchStats := updateStats r.source st.searchStats,
                   recentSearches := history', cache := eo.cache,
                   requests := eo.requests },
        delivered := some r, strategyInvoked := true, apiCalled := eo.apiCalled }

/-- How the underlying `fetch` of one `performApiSearch` call ended. -/
inductive FetchOutcome where
  | success (data : List User)
  | httpError (status : Nat)
  | aborted
  | networkError (msg : String)
deriving DecidableEq, Repr

/-- `performApiSearch` (lines 660-700) as seen at its promise boundary:
a fulfilled fetch is filtered by the configured search fields and truncated
to `maxResults`; a non-ok response rejects with an `HTTP <status>` error; an
aborted fetch rejects with an `AbortError`. -/
def performApiSearch (fields : List UserField) (maxResults : Nat)
    (q : String) : FetchOutcome → Except JsError (List User)
  | .success data =>
    .ok ((data.filter (userMatches fields (strLower q))).take maxResults)
  | .httpError status => .error { name := "Error", message := "HTTP " ++ toString status }
  | .aborted => .error { name := "AbortError", message := "signal is aborted without reason" }
  | .networkError m => .error { name := "TypeError", message := m }

/-- What `handleInputChange` decided to do with the keystroke. -/
inductive InputDispatch where
  | noDispatch
  | immediate
  | debounced
deriving DecidableEq, Repr

/-- `handleInputChange` (lines 837-876), up to the point where it either
returns, calls `performSearch` synchronously (manual mode), or schedules the
debounced search: the `error` field is reset on every keystroke; an empty
trimmed query clears the results and closes the dropdown without dispatching;
in manual mode a too-short query only clears the results; otherwise the
loading flag is raised and the debounced search scheduled. -/
def handleInputChange (minQueryLength : Nat) (mode : SearchMode)
    (newQuery : String) (ar : ApiResult) : ApiResult × InputDispatch :=
  let ar0 := { ar with error := none }
  let trimmedQuery := strTrim newQuery
  if trimmedQuery = "" then
    ({ ar0 with results := [], isDropdownOpen := false }, .noDispatch)
  else if mode = .manual then
    if minQueryLength ≤ trimmedQuery.length then (ar0, .immediate)
    else ({ ar0 with results := [] }, .noDispatch)
  else
    ({ ar0 with isLoading := true }, .debounced)

/-- The manual submit branch of `handleKeyDown` (lines 937-966), i.e. the
body guarded by `searchMode === "manual" && query.trim().length >=
minQueryLength`: on fulfilment of `performApiSearch` it records a rate-limiter
timestamp, writes the cache, applies the results and bumps the api counter;
on rejection it surfaces a failure message unless the rejection is an
`AbortError`, which is swallowed; either way `isLoading` ends false.
LocalHistory is not touched on this path. -/
def handleEnterSubmit (maxCacheSize : Nat) (now : Int) (query : String)
    (api : Except JsError (List User)) (st : OrchState) : OrchState :=
  match api with
  | .ok data =>
    { st with
      apiResult := { st.apiResult with results := data, error := none,
                                       isDropdownOpen := true, isLoading := false },
      searchStats := updateStats .api st.searchStats,
      cache := SearchCache.set maxCacheSize now st.cache (strTrim query) data,
      requests := RateLimiter.record now st.requests }
  | .error e =>
    if e.name ≠ "AbortError" then
      { st with apiResult := { st.apiResult with
                               error := some "Search failed. Please try again.",
                               isLoading := false } }
    else
      { st with apiResult := { st.apiResult with isLoading := false } }

/-! ### Cache operation sequences (for the size-bound invariant) -/

/-- One call against a single cache instance. -/
inductive CacheOp where
  | get (now : Int) (q : String)
  | set (now : Int) (q : String) (d : List User)
  | fuzzy (now : Int) (q : String)
  | clear
deriving DecidableEq, Repr

/-- Apply one call to the cache state (`get` may lazily evict, `set` may
evict-then-insert, `fuzzyMatch` never mutates, `clear` drops everything). -/
def applyCacheOp (duration : Int) (maxSize : Nat) (c : Cache) : CacheOp → Cache
  | .get now q => (SearchCache.get duration now c q).2
  | .set now q d => SearchCache.set maxSize now c q d
  | .fuzzy _ _ => c
  | .clear => []

/-- Run a sequence of calls against an initially empty cache. -/
def runCacheOps (duration : Int) (maxSize : Nat) (ops : List CacheOp) : Cache :=
  ops.foldl (applyCacheOp duration maxSize) []

/-- Whether one call avoids the empty-string key on `set`. -/
def cacheOpKeyOk : CacheOp → Bool
  | .set _ q _ => decide (q ≠ "")
  | _ => true

/-- Every `set` in the sequence uses a non-empty key. -/
def cacheOpsKeysOk (ops : List CacheOp) : Bool :=
  ops.all cacheOpKeyOk

/-- A cache state within the size bound whose stored keys are all non-empty
(the reachable states of the integrated component, whose queries are trimmed
and non-empty). -/
def goodCache (maxSize : Nat) (c : Cache) : Prop :=
  c.length ≤ maxSize ∧ ∀ p ∈ c, p.1 ≠ ""

/-! ### Sample values for the concrete scenarios -/

/-- Sample remote user. -/
def john : User :=
  { id := 1, name := "john", email := "john@x.com", companyName := "acme" }

/-- Sample local-history user whose name contains the query `"abcd"`. -/
def abe : User :=
  { id := 2, name := "xabcdey", email := "a@x.com", companyName := "acme" }

/-- Orchestrator state of a freshly mounted component. -/
def emptyState : OrchState :=
  { apiResult := { isLoading := false, error := none, results := [], isDropdownOpen := false },
    searchStats := { apiCalls := 0, cacheHits := 0, localSearches := 0 },
    recentSearches := [], cache := [], requests := [] }

/-- Orchestrator state mid-session: a visible previous result and error,
non-zero counters, one local-history entry matching `"abcd"`, and one
rate-limiter timestamp at `t = 0`. -/
def seededState : OrchState :=
  { apiResult := { isLoading := false, error := some "previous", results := [john],
                   isDropdownOpen := true },
    searchStats := { apiCalls := 3, cacheHits := 4, localSearches := 5 },
    recentSearches := [("al", [abe])], cache := [], requests := [0] }

/-! ### Supporting lemmas -/

/-- Deleting a key from the map model yields a sublist. -/
theorem mapDelete_sublist {α : Type} (m : List (String × α)) (k : String) :
    List.Sublist (mapDelete m k) m := by
  induction m with
  | nil => simp [mapDelete]
  | cons p rest ih =>
    simp only [mapDelete]
    split
    · exact List.sublist_cons_self p rest
    · exact List.Sublist.cons₂ p ih

/-- Deleting a present key shrinks the map by exactly one binding. -/
theorem length_mapDelete_of_mapGet {α : Type} {m : List (String × α)}
    {k : String} {v : α} (h : mapGet m k = some v) :
    (mapDelete m k).length + 1 = m.length := by
  induction m with
  | nil => simp [mapGet] at h
  | cons p rest ih =>
    by_cases hp : p.1 = k
    · simp [mapDelete, hp]
    · simp only [mapGet, hp, if_false] at h
      simp [mapDelete, hp, ih h]

/-- Deleting the head's key removes exactly the head. -/
theorem mapDelete_head {α : Type} (p : String × α) (rest : List (String × α)) :
    mapDelete (p :: rest) p.1 = rest := by
  simp [mapDelete]

/-- Setting a key grows the map by at most one binding. -/
theorem length_mapSet_le {α : Type} (m : List (String × α)) (k : String) (v : α) :
    (mapSet m k v).length ≤ m.length + 1 := by
  unfold mapSet
  split
  · simp
  · simp

/-- Every binding of the updated map is an old binding or the new one. -/
theorem mem_mapSet {α : Type} {m : List (String × α)} {k : String} {v : α}
    {p : String × α} (h : p ∈ mapSet m k v) : p ∈ m ∨ p = (k, v) := by
  unfold mapSet at h
  split at h
  · rcases List.mem_map.mp h with ⟨q, hq, hpq⟩
    by_cases hk : q.1 = k
    · right
      rw [if_pos hk] at hpq
      exact hpq.symm
    · left
      rw [if_neg hk] at hpq
      exact hpq ▸ hq
  · rcases List.mem_append.mp h with hm | hnew
    · exact Or.inl hm
    · exact Or.inr (List.mem_singleton.mp hnew)

/-- A purge at an earlier instant never changes what a purge at a later
instant retains. -/
theorem cleanup_cleanup (windowMs now t' : Int) (h : now ≤ t') (l : List Int) :
    RateLimiter.cleanup windowMs t' (RateLimiter.cleanup windowMs now l)
      = RateLimiter.cleanup windowMs t' l := by
  simp only [RateLimiter.cleanup, List.filter_filter]
  apply List.filter_congr
  intro a _
  by_cases ht : t' - windowMs < a
  · have hn : now - windowMs < a := by omega
    simp [ht, hn]
  · simp [ht]

/-- The exact-lookup side effect only ever deletes the looked-up key. -/
theorem get_snd_sublist (duration now : Int) (c : Cache) (q : String) :
    List.Sublist (SearchCache.get duration now c q).2 c := by
  unfold SearchCache.get
  cases hm : mapGet c q with
  | none => simp
  | some entry =>
    simp only
    split
    · exact mapDelete_sublist c q
    · exact List.Sublist.refl c

/-- At capacity, with a non-empty first key, the eviction step of `set`
removes exactly the first-inserted entry. -/
theorem evict_at_capacity (maxSize : Nat) (c : Cache)
    (hlen : maxSize ≤ c.length) (hne : c ≠ []) (hkeys : ∀ p ∈ c, p.1 ≠ "") :
    SearchCache.evict maxSize c = c.tail := by
  unfold SearchCache.evict
  rw [if_pos hlen]
  match c, hne with
  | p :: rest, _ =>
    simp only [List.head?_cons]
    rw [if_neg (hkeys p (List.mem_cons_self p rest)), mapDelete_head]
    rfl

/-- One `set` with a non-empty key preserves `goodCache`. -/
theorem goodCache_set (maxSize : Nat) (hmax : 1 ≤ maxSize) (now : Int)
    (c : Cache) (hc : goodCache maxSize c) (q : String) (hq : q ≠ "")
    (d : List User) : goodCache maxSize (SearchCache.set maxSize now c q d) := by
  obtain ⟨hlen, hkeys⟩ := hc
  have hev : SearchCache.evict maxSize c = c.tail ∨ SearchCache.evict maxSize c = c := by
    unfold SearchCache.evict
    split
    · rename_i hfull
      have hne : c ≠ [] := by
        intro hnil
        rw [hnil] at hfull
        simp at hfull
        omega
      left
      rw [← evict_at_capacity maxSize c hfull hne hkeys]
      unfold SearchCache.evict
      rw [if_pos hfull]
    · right
      rfl
  have hevfull : maxSize ≤ c.length → (SearchCache.evict maxSize c).length + 1 ≤ maxSize := by
    intro hfull
    have hne : c ≠ [] := by
      intro hnil
      rw [hnil] at hfull
      simp at hfull
      omega
    rw [evict_at_capacity maxSize c hfull hne hkeys]
    rcases c with _ | ⟨p, rest⟩
    · exact absurd rfl hne
    · simp only [List.tail_cons]
      have : rest.length + 1 ≤ maxSize := by
        have : (p :: rest).length = rest.length + 1 := by simp
        omega
      omega
  have hevkeys : ∀ p ∈ SearchCache.evict maxSize c, p.1 ≠ "" := by
    intro p hp
    rcases hev with hev | hev
    · rw [hev] at hp
      exact hkeys p (List.mem_of_mem_tail hp)
    · rw [hev] at hp
      exact hkeys p hp
  constructor
  · unfold SearchCache.set
    by_cases hfull : maxSize ≤ c.length
    · calc (mapSet (SearchCache.evict maxSize c) q { data := d, timestamp := now }).length
          ≤ (SearchCache.evict maxSize c).length + 1 := length_mapSet_le _ _ _
        _ ≤ maxSize := hevfull hfull
    · have hlt : c.length < maxSize := Nat.lt_of_not_le hfull
      have hevc : SearchCache.evict maxSize c = c := by
        unfold SearchCache.evict
        rw [if_neg hfull]
      calc (mapSet (SearchCache.evict maxSize c) q { data := d, timestamp := now }).length
          ≤ (SearchCache.evict maxSize c).length + 1 := length_mapSet_le _ _ _
        _ = c.length + 1 := by rw [hevc]
        _ ≤ maxSize := hlt
  · intro p hp
    rcases mem_mapSet hp with hold | hnew
    · exact hevkeys p hold
    · rw [hnew]
      exact hq

/-- Each cache call preserves `goodCache` (given a non-empty `set` key). -/
theorem goodCache_applyCacheOp (duration : Int) (maxSize : Nat)
    (hmax : 1 ≤ maxSize) (c : Cache) (hc : goodCache maxSize c)
    (op : CacheOp) (hop : cacheOpKeyOk op = true) :
    goodCache maxSize (applyCacheOp duration maxSize c op) := by
  cases op with
  | get now q =>
    have hsub := get_snd_sublist duration now c q
    exact ⟨le_trans hsub.length_le hc.1, fun p hp => hc.2 p (hsub.subset hp)⟩
  | set now q d =>
    have hq : q ≠ "" := of_decide_eq_true hop
    exact goodCache_set maxSize hmax now c hc q hq d
  | fuzzy now q => exact hc
  | clear => exact ⟨by simp [applyCacheOp], by simp [applyCacheOp]⟩

/-- Folding a key-respecting call sequence preserves `goodCache`. -/
theorem goodCache_foldl (duration : Int) (maxSize : Nat) (hmax : 1 ≤ maxSize) :
    ∀ (ops : List CacheOp) (c : Cache), goodCache maxSize c →
      cacheOpsKeysOk ops = true →
      goodCache maxSize (ops.foldl (applyCacheOp duration maxSize) c) := by
  intro ops
  induction ops with
  | nil =>
    intro c hc _
    exact hc
  | cons op rest ih =>
    intro c hc hk
    rw [cacheOpsKeysOk, List.all_cons, Bool.and_eq_true] at hk
    exact ih _ (goodCache_applyCacheOp duration maxSize hmax c hc op hk.1) hk.2

/-- When the limiter reports limited, `tryApiSearch` answers `rate_limited`
without invoking the remote, leaving the cache untouched and the timestamp
array merely purged. -/
theorem tryApiSearch_limited (limit : Nat) (windowMs : Int) (maxCacheSize : Nat)
    (now : Int) (c : Cache) (requests : List Int) (q : String)
    (api : Except JsError (List User))
    (hlim : limit ≤ (RateLimiter.cleanup windowMs now requests).length) :
    tryApiSearch limit windowMs maxCacheSize now c requests q api
      = { result := { data := [], source := .rate_limited,
                      error := some "Rate limit exceeded. Please slow down." },
          cache := c, requests := RateLimiter.cleanup windowMs now requests,
          apiCalled := false } := by
  unfold tryApiSearch
  rw [if_pos hlim]

/-! ### Claim theorems -/

/-- C7 : with `limit = 3` and `window = 1000 ms`, three `record()` calls at
`t = 0` make `isLimited()` true at `t = 500` and false at `t = 1500`; in
general `isLimited()` returns true exactly when the count retained after the
purge reaches the limit, and the purge retains exactly the recorded
timestamps strictly inside the window. -/
theorem rate_limiter_sliding_window :
    RateLimiter.isLimited 3 1000 500
        (RateLimiter.record 0 (RateLimiter.record 0 (RateLimiter.record 0 []))) = true
    ∧ RateLimiter.isLimited 3 1000 1500
        (RateLimiter.record 0 (RateLimiter.record 0 (RateLimiter.record 0 []))) = false
    ∧ (∀ (limit : Nat) (windowMs now : Int) (requests : List Int),
        RateLimiter.isLimited limit windowMs now requests = true
          ↔ limit ≤ (RateLimiter.cleanup windowMs now requests).length)
    ∧ (∀ (windowMs now t : Int) (requests : List Int),
        t ∈ RateLimiter.cleanup windowMs now requests
          ↔ t ∈ requests ∧ now - windowMs < t) := by
  refine ⟨by decide, by decide, ?_, ?_⟩
  · intro limit windowMs now requests
    simp [RateLimiter.isLimited]
  · intro windowMs now t requests
    simp [RateLimiter.cleanup, List.mem_filter]

/-- C5 counterexample: at `now = timestamp + cacheDuration` exactly
(entry written at `t = 0`, `cacheDuration = 100`, read at `t = 100`,
so `now >= timestamp + cacheDuration` holds), `get` still returns the entry
and deletes nothing — the claim's "absent once `now >= timestamp +
cacheDuration`" fails at the boundary. -/
theorem cache_ttl_boundary_counterexample :
    (100 : Int) ≥ 0 + 100
    ∧ SearchCache.get 100 100 [("jo", { data := [john], timestamp := 0 })] "jo"
        = (some [john], [("jo", { data := [john], timestamp := 0 })]) := by
  constructor
  · decide
  · decide

/-- C5 amended: an entry is reported absent and deleted as a side effect
(shrinking the map by exactly one binding, observable through a subsequent
`size` read) once `now` is strictly past `timestamp + cacheDuration`,
i.e. `now - timestamp > cacheDuration`. -/
theorem cache_ttl_strict (duration now : Int) (c : Cache) (q : String)
    (e : CacheEntry) (hget : mapGet c q = some e)
    (hexp : duration < now - e.timestamp) :
    SearchCache.get duration now c q = (none, mapDelete c q)
    ∧ (mapDelete c q).length + 1 = c.length := by
  constructor
  · unfold SearchCache.get
    rw [hget]
    simp [hexp]
  · exact length_mapDelete_of_mapGet hget

/-- Witness for the amended C5 theorem at a concrete expired entry. -/
theorem cache_ttl_strict_witness :
    SearchCache.get 100 101 [("jo", { data := [john], timestamp := 0 })] "jo"
      = (none, mapDelete ([("jo", { data := [john], timestamp := 0 })] : Cache) "jo")
    ∧ (mapDelete ([("jo", { data := [john], timestamp := 0 })] : Cache) "jo").length + 1
      = ([("jo", { data := [john], timestamp := 0 })] : Cache).length :=
  cache_ttl_strict 100 101 [("jo", { data := [john], timestamp := 0 })] "jo"
    { data := [john], timestamp := 0 } (by decide) (by decide)

/-- C4 : the conservative strategy never invokes the remote search function
for a query of length at most 3 — it answers from the local history with
source `local` and leaves cache and rate limiter untouched — nor for a
longer query with an exact cache hit, which it answers with source `cache`. -/
theorem conservative_never_remote_when_short_or_cached
    (limit : Nat) (windowMs duration : Int) (maxCacheSize : Nat) (now : Int)
    (c : Cache) (requests : List Int) (q : String)
    (api : Except JsError (List User)) (localSearch : String → List User) :
    (q.length ≤ 3 →
      conservativeExecute limit windowMs duration maxCacheSize now c requests q api localSearch
        = { result := { data := localSearch q, source := Source.«local»,
                        error := if localSearch q = [] then some "Type more characters for API search" else none },
            cache := c, requests := requests, apiCalled := false })
    ∧ (∀ (d : List User) (c' : Cache), 3 < q.length →
        SearchCache.get duration now c q = (some d, c') →
        conservativeExecute limit windowMs duration maxCacheSize now c requests q api localSearch
          = { result := { data := d, source := .cache, error := none },
              cache := c', requests := requests, apiCalled := false }) := by
  constructor
  · intro h
    unfold conservativeExecute
    rw [if_pos h]
  · intro d c' h3 hget
    unfold conservativeExecute
    rw [if_neg (Nat.not_le.mpr h3), hget]

/-- Witness for C4 at concrete inputs: a short query with a non-empty local
history, and a length-4 query with an exact cache hit. -/
theorem conservative_never_remote_witness :
    (conservativeExecute 60 60000 300000 50 0 [] [] "ab" (.ok [])
        (fun _ => [john])).apiCalled = false
    ∧ (conservativeExecute 60 60000 300000 50 0
        [("abcd", { data := [john], timestamp := 0 })] [] "abcd" (.ok [])
        (fun _ => [])).result.source = Source.cache := by
  constructor
  · rw [(conservative_never_remote_when_short_or_cached 60 60000 300000 50 0
      [] [] "ab" (.ok []) (fun _ => [john])).1 (by decide)]
  · rw [(conservative_never_remote_when_short_or_cached 60 60000 300000 50 0
      [("abcd", { data := [john], timestamp := 0 })] [] "abcd" (.ok [])
      (fun _ => [])).2 [john] [("abcd", { data := [john], timestamp := 0 })]
      (by decide) (by decide)]

/-- C6 counterexample: on a cache with `maxCacheSize = 1`, the sequence
`set("", d); set("b", d)` leaves 2 entries — the second `set` finds the
empty-string first key, the falsy `if (firstKey)` guard skips the eviction,
and the insertion breaks the `size <= maxCacheSize` bound. -/
theorem cache_bound_counterexample :
    (runCacheOps 300000 1 [CacheOp.set 0 "" [john], CacheOp.set 0 "b" [john]]).length = 2
    ∧ ¬ (runCacheOps 300000 1 [CacheOp.set 0 "" [john], CacheOp.set 0 "b" [john]]).length ≤ 1 := by
  constructor
  · decide
  · decide

/-- C6 amended: for every sequence of `set` calls whose keys are non-empty
strings (with any interleaved `get`/`fuzzyMatch`/`clear` calls) on a cache
configured with `maxCacheSize >= 1`, `size <= maxCacheSize` holds after every
call; and a `set` performed at capacity (all stored keys non-empty) evicts
exactly one existing entry — the first-inserted one — before inserting. -/
theorem cache_size_bound_nonempty_keys (duration : Int) (maxSize : Nat)
    (hmax : 1 ≤ maxSize) (ops : List CacheOp)
    (hkeys : cacheOpsKeysOk ops = true) :
    (∀ n : Nat, (runCacheOps duration maxSize (ops.take n)).length ≤ maxSize)
    ∧ (∀ c : Cache, c.length = maxSize → (∀ p ∈ c, p.1 ≠ "") →
        SearchCache.evict maxSize c = c.tail
        ∧ (SearchCache.evict maxSize c).length + 1 = c.length) := by
  constructor
  · intro n
    have hkn : cacheOpsKeysOk (ops.take n) = true := by
      rw [cacheOpsKeysOk, List.all_eq_true]
      intro op hop
      rw [cacheOpsKeysOk, List.all_eq_true] at hkeys
      exact hkeys op (List.take_subset n ops hop)
    have hgood : goodCache maxSize (runCacheOps duration maxSize (ops.take n)) :=
      goodCache_foldl duration maxSize hmax (ops.take n) []
        ⟨by simp, by simp⟩ hkn
    exact hgood.1
  · intro c hlen hk
    have hfull : maxSize ≤ c.length := le_of_eq hlen.symm
    have hne : c ≠ [] := by
      intro hnil
      rw [hnil] at hlen
      simp at hlen
      omega
    have hev := evict_at_capacity maxSize c hfull hne hk
    refine ⟨hev, ?_⟩
    rw [hev]
    rcases c with _ | ⟨p, rest⟩
    · exact absurd rfl hne
    · simp

/-- Witness for the amended C6 theorem: a full sequence with non-empty keys
stays within the bound, and a concrete full cache evicts its first entry. -/
theorem cache_size_bound_nonempty_keys_witness :
    (runCacheOps 300000 1
        (([CacheOp.set 0 "a" [john], CacheOp.set 0 "b" [john],
           CacheOp.get 0 "a"]).take 2)).length ≤ 1
    ∧ SearchCache.evict 1 [("a", { data := [john], timestamp := 0 })]
        = ([("a", { data := [john], timestamp := 0 })] : Cache).tail := by
  constructor
  · exact (cache_size_bound_nonempty_keys 300000 1 (by decide)
      [CacheOp.set 0 "a" [john], CacheOp.set 0 "b" [john], CacheOp.get 0 "a"]
      (by decide)).1 2
  · exact ((cache_size_bound_nonempty_keys 300000 1 (by decide)
      [CacheOp.set 0 "a" [john], CacheOp.set 0 "b" [john], CacheOp.get 0 "a"]
      (by decide)).2 [("a", { data := [john], timestamp := 0 })]
      (by decide) (by decide)).1

/-- C3 counterexample: in conservative mode with `rateLimit = 1`, one
timestamp in the window, query `"abcd"` missing the cache and matching one
local-history user, the resolution is tagged `rate_limited` (all three stats
counters stay at their previous values), yet its non-empty data IS written to
LocalHistory — contradicting "written iff the source tag is not rate_limited
and the data is non-empty". -/
theorem local_history_rate_limited_counterexample :
    (performSearch { rateLimit := 1 } 500 "abcd" .conservative .conservative
        (.ok []) seededState).delivered
      = some { data := [abe], source := .rate_limited,
               error := some "Rate limited. Showing local results." }
    ∧ (performSearch { rateLimit := 1 } 500 "abcd" .conservative .conservative
        (.ok []) seededState).state.searchStats = seededState.searchStats
    ∧ (performSearch { rateLimit := 1 } 500 "abcd" .conservative .conservative
        (.ok []) seededState).state.recentSearches
      = [("al", [abe]), ("abcd", [abe])] := by
  refine ⟨by decide, by decide, by decide⟩

/-- C3 amended: for every resolved (delivered, non-superseded) search, the
orchestrator writes the result set into LocalHistory if and only if the
result's data is non-empty — the source tag, `rate_limited` included, is not
consulted. -/
theorem local_history_write_iff_nonempty (cfg : Config) (now : Int)
    (q : String) (mode : SearchMode) (api : Except JsError (List User))
    (st : OrchState) (r : SearchResult)
    (h : (performSearch cfg now q mode mode api st).delivered = some r) :
    (performSearch cfg now q mode mode api st).state.recentSearches
      = (if r.data = [] then st.recentSearches
         else historySet st.recentSearches (strTrim q) r.data) := by
  have hmode : ¬ (mode ≠ mode) := fun hh => hh rfl
  unfold performSearch at h ⊢
  by_cases hshort : strTrim q = "" ∨ (strTrim q).length < cfg.minQueryLength
  · rw [if_pos hshort] at h
    simp at h
  · rw [if_neg hshort] at h ⊢
    rw [if_neg hmode] at h ⊢
    dsimp only at h ⊢
    rw [Option.some.injEq] at h
    rw [← h]

/-- Witness for the amended C3 theorem: a successful balanced api search with
non-empty data is written to LocalHistory. -/
theorem local_history_write_iff_nonempty_witness :
    (performSearch {} 0 "jo" .balanced .balanced (.ok [john])
        emptyState).state.recentSearches
      = (if ([john] : List User) = [] then emptyState.recentSearches
         else historySet emptyState.recentSearches (strTrim "jo") [john]) :=
  local_history_write_iff_nonempty {} 0 "jo" .balanced (.ok [john]) emptyState
    { data := [john], source := .api, error := none } (by decide)

/-- C8 counterexample: the query `"a"` (trimmed length 1, below the default
`minQueryLength = 2`) from a state showing a previous error yields `error =
none` — no informational message is surfaced for the nonzero-but-too-short
case, contradicting the claim's message requirement (the clearing itself
does happen). -/
theorem short_query_no_message_counterexample :
    (performSearch {} 0 "a" .balanced .balanced (.ok []) seededState).state.apiResult.error
      = none
    ∧ (performSearch {} 0 "a" .balanced .balanced (.ok []) seededState).state.apiResult.results
      = []
    ∧ (performSearch {} 0 "a" .balanced .balanced (.ok []) seededState).strategyInvoked
      = false := by
  refine ⟨by decide, by decide, by decide⟩

/-- C8 amended: a query whose trimmed form is empty or shorter than
`minQueryLength` is never dispatched to any strategy and its result set is
cleared immediately, with NO message surfaced in either case — `error` is
reset to `none` for the zero-length and for the nonzero-but-too-short query
alike (both in `performSearch` and on the `handleInputChange` keystroke
paths). -/
theorem short_query_validation (cfg : Config) (now : Int) (q : String)
    (mode modeAtRes : SearchMode) (api : Except JsError (List User))
    (st : OrchState) (ar : ApiResult)
    (h : strTrim q = "" ∨ (strTrim q).length < cfg.minQueryLength) :
    performSearch cfg now q mode modeAtRes api st
      = { state := { st with apiResult := { st.apiResult with error := none, results := [] } },
          delivered := none, strategyInvoked := false, apiCalled := false }
    ∧ (strTrim q = "" →
        handleInputChange cfg.minQueryLength mode q ar
          = ({ ar with error := none, results := [], isDropdownOpen := false }, .noDispatch))
    ∧ (mode = .manual → strTrim q ≠ "" → (strTrim q).length < cfg.minQueryLength →
        handleInputChange cfg.minQueryLength mode q ar
          = ({ ar with error := none, results := [] }, .noDispatch)) := by
  refine ⟨?_, ?_, ?_⟩
  · unfold performSearch
    rw [if_pos h]
  · intro hempty
    unfold handleInputChange
    rw [if_pos hempty]
  · intro hman hne hlt
    unfold handleInputChange
    rw [if_neg hne, if_pos hman, if_neg (Nat.not_le.mpr hlt)]

/-- Witness for the amended C8 theorem at the concrete query `"a"` with the
default configuration. -/
theorem short_query_validation_witness :
    performSearch {} 0 "a" .manual .manual (.ok []) seededState
      = { state := { seededState with
                     apiResult := { seededState.apiResult with error := none, results := [] } },
          delivered := none, strategyInvoked := false, apiCalled := false }
    ∧ handleInputChange (2 : Nat) .manual "a" seededState.apiResult
      = ({ seededState.apiResult with error := none, results := [] }, .noDispatch) := by
  have hmain := short_query_validation {} 0 "a" .manual .manual (.ok [])
    seededState seededState.apiResult (Or.inr (by decide))
  exact ⟨hmain.1, hmain.2.2 rfl (by decide) (by decide)⟩

/-- C9 : when both cache lookups miss, the rate limiter reports limited and
the local-history search is non-empty, the balanced strategy's result is the
local data with source `local` and the degraded-mode message — the
`rate_limited` provenance never reaches the orchestrator, the remote is not
invoked, and `updateStats` on this result bumps `localSearches`. -/
theorem balanced_masks_rate_limited (limit : Nat) (windowMs duration : Int)
    (maxCacheSize : Nat) (now : Int) (c c1 : Cache) (requests : List Int)
    (q : String) (api : Except JsError (List User))
    (localSearch : String → List User) (s : SearchStats)
    (hget : SearchCache.get duration now c q = (none, c1))
    (hfuzzy : SearchCache.fuzzyMatch duration now c1 q = none)
    (hlim : RateLimiter.isLimited limit windowMs now requests = true)
    (hlocal : localSearch q ≠ []) :
    (balancedExecute limit windowMs duration maxCacheSize now c requests q api localSearch).result
      = { data := localSearch q, source := Source.«local»,
          error := some "Showing local results (API unavailable)" }
    ∧ (balancedExecute limit windowMs duration maxCacheSize now c requests q api localSearch).apiCalled
      = false
    ∧ updateStats
        (balancedExecute limit windowMs duration maxCacheSize now c requests q api localSearch).result.source
        s
      = { s with localSearches := s.localSearches + 1 } := by
  have hlim' : limit ≤ (RateLimiter.cleanup windowMs now requests).length := by
    rw [RateLimiter.isLimited] at hlim
    exact of_decide_eq_true hlim
  have hbal :
      balancedExecute limit windowMs duration maxCacheSize now c requests q api localSearch
        = { result := { data := localSearch q, source := Source.«local»,
                        error := some "Showing local results (API unavailable)" },
            cache := c1, requests := RateLimiter.cleanup windowMs now requests,
            apiCalled := false } := by
    unfold balancedExecute
    rw [hget]
    dsimp only
    rw [hfuzzy]
    dsimp only
    rw [tryApiSearch_limited limit windowMs maxCacheSize now c1 requests q api hlim']
    dsimp only
    rw [if_pos ⟨rfl, rfl⟩, if_pos hlocal]
  rw [hbal]
  exact ⟨rfl, rfl, rfl⟩

/-- Witness for C9 with `rateLimit = 0` (always limited), empty cache, and
one matching local-history user. -/
theorem balanced_masks_rate_limited_witness :
    (balancedExecute 0 60000 300000 50 0 [] [] "abcd" (.ok [])
        (fun _ => [abe])).result
      = { data := [abe], source := Source.«local»,
          error := some "Showing local results (API unavailable)" }
    ∧ updateStats
        (balancedExecute 0 60000 300000 50 0 [] [] "abcd" (.ok [])
          (fun _ => [abe])).result.source
        { apiCalls := 3, cacheHits := 4, localSearches := 5 }
      = { apiCalls := 3, cacheHits := 4, localSearches := 6 } := by
  have hmain := balanced_masks_rate_limited 0 60000 300000 50 0 [] [] [] "abcd"
    (.ok []) (fun _ => [abe]) { apiCalls := 3, cacheHits := 4, localSearches := 5 }
    (by decide) (by decide) (by decide) (by decide)
  exact ⟨hmain.1, hmain.2.2⟩

/-- C10 : `record()` runs only after the remote promise resolves
successfully.  A rejecting remote call (any error, aborts included) leaves
the timestamp array merely purged — a sublist of the old one with
`isLimited()` and `remaining()` unchanged at every later instant; a limited
call records nothing; a successful unlimited call appends exactly one
timestamp; the manual submit path records nothing on rejection; and the
manual strategy never touches the limiter or the remote at all. -/
theorem record_only_after_success (limit : Nat) (windowMs duration : Int)
    (maxCacheSize : Nat) (now : Int) (c : Cache) (requests : List Int)
    (q : String) (e : JsError) (st : OrchState)
    (localSearch : String → List User) :
    ((tryApiSearch limit windowMs maxCacheSize now c requests q (.error e)).requests
        = RateLimiter.cleanup windowMs now requests)
    ∧ List.Sublist
        (tryApiSearch limit windowMs maxCacheSize now c requests q (.error e)).requests
        requests
    ∧ (∀ (limit2 : Nat) (t' : Int), now ≤ t' →
        RateLimiter.isLimited limit2 windowMs t'
            (tryApiSearch limit windowMs maxCacheSize now c requests q (.error e)).requests
          = RateLimiter.isLimited limit2 windowMs t' requests
        ∧ RateLimiter.remaining limit2 windowMs t'
            (tryApiSearch limit windowMs maxCacheSize now c requests q (.error e)).requests
          = RateLimiter.remaining limit2 windowMs t' requests)
    ∧ (∀ api : Except JsError (List User),
        limit ≤ (RateLimiter.cleanup windowMs now requests).length →
        (tryApiSearch limit windowMs maxCacheSize now c requests q api).requests
          = RateLimiter.cleanup windowMs now requests)
    ∧ (∀ data : List User,
        ¬ limit ≤ (RateLimiter.cleanup windowMs now requests).length →
        (tryApiSearch limit windowMs maxCacheSize now c requests q (.ok data)).requests
          = RateLimiter.record now (RateLimiter.cleanup windowMs now requests))
    ∧ ((handleEnterSubmit maxCacheSize now q (.error e) st).requests = st.requests)
    ∧ ((manualExecute duration now c requests q localSearch).requests = requests
        ∧ (manualExecute duration now c requests q localSearch).apiCalled = false) := by
  have herr : (tryApiSearch limit windowMs maxCacheSize now c requests q (.error e)).requests
      = RateLimiter.cleanup windowMs now requests := by
    unfold tryApiSearch
    dsimp only
    split
    · rfl
    · rfl
  refine ⟨herr, ?_, ?_, ?_, ?_, ?_, ?_⟩
  · rw [herr]
    exact List.filter_sublist requests
  · intro limit2 t' ht'
    rw [herr]
    constructor
    · unfold RateLimiter.isLimited
      rw [cleanup_cleanup windowMs now t' ht' requests]
    · unfold RateLimiter.remaining
      rw [cleanup_cleanup windowMs now t' ht' requests]
  · intro api hlim
    rw [tryApiSearch_limited limit windowMs maxCacheSize now c requests q api hlim]
  · intro data hnl
    unfold tryApiSearch
    dsimp only
    rw [if_neg hnl]
  · unfold handleEnterSubmit
    dsimp only
    split
    · rfl
    · rfl
  · constructor
    · unfold manualExecute
      rcases hg : SearchCache.get duration now c q with ⟨og, cg⟩
      cases og
      · rfl
      · rfl
    · unfold manualExecute
      rcases hg : SearchCache.get duration now c q with ⟨og, cg⟩
      cases og
      · rfl
      · rfl

/-- Witness for C10 at concrete inputs: a network rejection at `t = 5` on
the state `[1]` leaves the array at `[1]` and the limiter's verdict at a
later instant unchanged, while a success appends the new timestamp. -/
theorem record_only_after_success_witness :
    (tryApiSearch 2 1000 50 5 [] [1] "jo"
        (.error { name := "TypeError", message := "failed" })).requests
      = RateLimiter.cleanup 1000 5 [1]
    ∧ RateLimiter.isLimited 2 1000 7
        (tryApiSearch 2 1000 50 5 [] [1] "jo"
          (.error { name := "TypeError", message := "failed" })).requests
      = RateLimiter.isLimited 2 1000 7 [1]
    ∧ (tryApiSearch 2 1000 50 5 [] [1] "jo" (.ok [john])).requests
      = RateLimiter.record 5 (RateLimiter.cleanup 1000 5 [1])
    ∧ (handleEnterSubmit 50 5 "jo"
        (.error { name := "TypeError", message := "failed" }) seededState).requests
      = seededState.requests := by
  have hmain := record_only_after_success 2 1000 300000 50 5 [] [1] "jo"
    { name := "TypeError", message := "failed" } seededState (fun _ => [])
  refine ⟨hmain.1, (hmain.2.2.1 2 7 (by decide)).1, ?_, ?_⟩
  · exact hmain.2.2.2.2.1 [john] (by decide)
  · exact hmain.2.2.2.2.2.1

/-- C1 : code evaluated at the failing input.  Search A (balanced mode,
query `"ab"`) is superseded by a search B issued before A's remote promise
resolves: B's dispatch aborts A's fetch, so A's `performApiSearch` promise
rejects with an `AbortError`.  With the active strategy mode unchanged, A's
resolution is NOT discarded: the strategy converts the abort into an
api-sourced error result, `performSearch` delivers it, and the visible error
is overwritten — contradicting "A's resolution never updates the visible
results or error". -/
theorem superseded_search_still_delivered :
    performApiSearch [.name, .email] 50 "ab" .aborted
      = .error { name := "AbortError", message := "signal is aborted without reason" }
    ∧ (performSearch {} 0 "ab" .balanced .balanced
        (performApiSearch [.name, .email] 50 "ab" .aborted) emptyState).delivered
      = some { data := [], source := .api,
               error := some "signal is aborted without reason" }
    ∧ (performSearch {} 0 "ab" .balanced .balanced
        (performApiSearch [.name, .email] 50 "ab" .aborted) emptyState).state.apiResult.error
      = some "signal is aborted without reason" := by
  refine ⟨rfl, by decide, by decide⟩

/-- C2 : code evaluated at the failing input.  An aborted remote call inside
a strategy path (instant mode, query `"jo"`) is NOT swallowed: `tryApiSearch`
catches the `AbortError` like any failure and the orchestrator delivers a
`{data: [], source: "api", error}` update to the caller's visible state.
The `error.name !== "AbortError"` guard in `performSearch`'s catch never sees
it.  Only the manual submit path (last conjunct) actually swallows the
abort, leaving the visible error untouched. -/
theorem aborted_request_still_updates_state :
    (performSearch {} 0 "jo" .instant .instant
        (performApiSearch [.name, .email] 50 "jo" .aborted) seededState).delivered
      = some { data := [], source := .api,
               error := some "signal is aborted without reason" }
    ∧ (performSearch {} 0 "jo" .instant .instant
        (performApiSearch [.name, .email] 50 "jo" .aborted) seededState).state.apiResult.error
      = some "signal is aborted without reason"
    ∧ (handleEnterSubmit 50 0 "jo"
        (performApiSearch [.name, .email] 50 "jo" .aborted) seededState).apiResult.error
      = seededState.apiResult.error := by
  refine ⟨by decide, by decide, by decide⟩

end FilterBug
